import Mathlib

/-!
Verification of the natural-language specification of a Minecraft launcher
front-end against its source (src/main.py).

The Python program is shallowly embedded: JSON documents become the `Json`
inductive, the settings file and the filesystem become explicit state,
Qt signal emissions become event lists, and Python dynamic-typing failures
surface as `PyErr` values.  Machine-level details that the claims do not
touch (floating point JSON numbers, unicode case folding beyond ASCII) are
noted where they are simplified.
-/

set_option autoImplicit false

/-- JSON documents as produced by Python `json.load`.  Numbers are modelled
as integers; the claims under study never involve fractional values. -/
inductive Json where
  | null
  | bool (b : Bool)
  | num (n : Int)
  | str (s : String)
  | arr (elems : List Json)
  | obj (fields : List (String × Json))

/-- First-match lookup in a Python dict rendered as an association list
(`json.load` never produces duplicate keys, so first match is the match). -/
def dlookup : List (String × Json) → String → Option Json
  | [], _ => none
  | (k, v) :: rest, key => if k = key then some v else dlookup rest key

/-- Python dict assignment: an existing key keeps its position and gets the
new value; a new key is appended at the end (insertion order, Python 3.7+). -/
def dset : List (String × Json) → String → Json → List (String × Json)
  | [], key, val => [(key, val)]
  | (k, v) :: rest, key, val =>
    if k = key then (k, val) :: rest else (k, v) :: dset rest key val

def keysOf (fields : List (String × Json)) : List String := fields.map Prod.fst

/-- Does `pat` occur at the head of `l`? -/
def charsLead : List Char → List Char → Bool
  | [], _ => true
  | _ :: _, [] => false
  | p :: ps, c :: cs => p == c && charsLead ps cs

/-- Does `pat` occur anywhere in `l`? -/
def charsHave (pat : List Char) : List Char → Bool
  | [] => charsLead pat []
  | c :: cs => charsLead pat (c :: cs) || charsHave pat cs

/-- Python substring test `pat in s`. -/
def strHas (s pat : String) : Bool := charsHave pat.data s.data

/-- The Python exceptions that the embedded code can raise. -/
inductive PyErr where
  | typeError
  | keyError
  | attributeError

/-- Python membership test `key in x` with a string needle: key test on a
dict, element equality on a list (a string equals no non-string JSON value),
substring test on a string, `TypeError` on anything else. -/
def py_contains : Json → String → Except PyErr Bool
  | .obj fields, key => .ok (fields.any fun kv => decide (kv.1 = key))
  | .arr xs, key =>
    .ok (xs.any fun x => match x with | .str s => decide (s = key) | _ => false)
  | .str s, key => .ok (strHas s key)
  | _, _ => .error .typeError

/-- Python subscript `x[key]` with a string key. -/
def py_getitem : Json → String → Except PyErr Json
  | .obj fields, key =>
    match dlookup fields key with
    | some v => .ok v
    | none => .error .keyError
  | _, _ => .error .typeError

/-- Python subscript assignment `x[key] = v` with a string key. -/
def py_setitem : Json → String → Json → Except PyErr Json
  | .obj fields, key, v => .ok (.obj (dset fields key v))
  | _, _, _ => .error .typeError

/-- Python `x.get(key, default)` — a dict method, `AttributeError` on
non-dicts. -/
def py_get : Json → String → Json → Except PyErr Json
  | .obj fields, key, dflt => .ok ((dlookup fields key).getD dflt)
  | _, _, _ => .error .attributeError

/-- Python `x.append(v)` — a list method, `AttributeError` on non-lists. -/
def py_append : Json → Json → Except PyErr Json
  | .arr xs, v => .ok (.arr (xs ++ [v]))
  | _, _ => .error .attributeError

/-- Python truthiness of a JSON value. -/
def truthy : Json → Bool
  | .null => false
  | .bool b => b
  | .num n => n != 0
  | .str s => !(s = "")
  | .arr xs => !xs.isEmpty
  | .obj fields => !fields.isEmpty

/-- Python `isinstance(x, list)`. -/
def is_list : Json → Bool
  | .arr _ => true
  | _ => false

/- ### Settings loading (src/main.py lines 9-57) -/

/-- Abstract filesystem state: the directories that exist, the directories
`os.makedirs` would succeed in creating, and the open file descriptors
(`os.path.exists` accepts an integer fd, and Python bools are ints). -/
structure FS where
  dirs : List String
  creatable : List String
  openFds : List Int

def SETTINGS_FILE : String := "launcher_settings.json"

/-- `os.path.join(os.getcwd(), "minecraft")`, with the working directory
left implicit. -/
def DEFAULT_MINECRAFT_DIR : String := "minecraft"

/-- Condition of the settings file when `load_settings` runs: absent,
present but unreadable (`OSError` on open/read), readable but not JSON
(`json.JSONDecodeError`), or a parsed JSON document. -/
inductive FileState where
  | missing
  | unreadable
  | malformed
  | parsed (j : Json)

/-- `os.path.exists` applied to the value stored under
`minecraft_directory`: a path check for strings, a file-descriptor check
for ints and bools, `TypeError` otherwise. -/
def path_exists (fs : FS) : Json → Except PyErr Bool
  | .str s => .ok (fs.dirs.contains s)
  | .num n => .ok (fs.openFds.contains n)
  | .bool b => .ok (fs.openFds.contains (if b then 1 else 0))
  | _ => .error .typeError

inductive MkdirsResult where
  | created (fs : FS)
  | oserror
  | typeerror

/-- `os.makedirs`: succeeds on a creatable string path, raises `OSError`
on an uncreatable one, `TypeError` on non-path arguments. -/
def makedirs (fs : FS) : Json → MkdirsResult
  | .str s =>
    if fs.creatable.contains s then .created { fs with dirs := s :: fs.dirs }
    else .oserror
  | _ => .typeerror

/-- Outcome of `load_settings`: a returned settings document, a process
exit via `sys.exit(1)`, or an uncaught exception. -/
inductive LoadResult where
  | ok (settings : Json) (fs : FS)
  | exited (fs : FS)
  | raised (fs : FS)

/-- The `default_settings` dict built at the top of `load_settings`. -/
def default_settings : Json :=
  .obj [("minecraft_directory", .str DEFAULT_MINECRAFT_DIR),
        ("profiles", .arr []),
        ("last_selected_profile", .null)]

/-- Lines 25-26: `if 'minecraft_directory' not in settings: settings[...] =
DEFAULT_MINECRAFT_DIR`. -/
def validate_mc (j : Json) : Except PyErr Json :=
  match py_contains j "minecraft_directory" with
  | .error e => .error e
  | .ok true => .ok j
  | .ok false => py_setitem j "minecraft_directory" (.str DEFAULT_MINECRAFT_DIR)

/-- Lines 27-28: `if 'profiles' not in settings or not
isinstance(settings['profiles'], list): settings['profiles'] = []`. -/
def validate_profiles (j : Json) : Except PyErr Json :=
  match py_contains j "profiles" with
  | .error e => .error e
  | .ok has_prof =>
    match (if has_prof then Except.map is_list (py_getitem j "profiles")
           else .ok false) with
    | .error e => .error e
    | .ok true => .ok j
    | .ok false => py_setitem j "profiles" (.arr [])

/-- Lines 29-30: `if 'last_selected_profile' not in settings:
settings[...] = None`. -/
def validate_last (j : Json) : Except PyErr Json :=
  match py_contains j "last_selected_profile" with
  | .error e => .error e
  | .ok true => .ok j
  | .ok false => py_setitem j "last_selected_profile" .null

/-- Lines 24-30: the key-presence validation of the parsed settings
document, including the `TypeError`s Python raises when the document is not
a dict. -/
def validate_settings (j : Json) : Except PyErr Json :=
  match validate_mc j with
  | .error e => .error e
  | .ok j1 =>
    match validate_profiles j1 with
    | .error e => .error e
    | .ok j2 => validate_last j2

/-- Lines 32-45: ensure the configured Minecraft directory exists, falling
back to the default directory on creation failure and exiting when even the
default cannot be created. -/
def ensure_mc_dir (settings : Json) (fs : FS) : LoadResult :=
  match py_getitem settings "minecraft_directory" with
  | .error _ => .raised fs
  | .ok mc_dir =>
    match path_exists fs mc_dir with
    | .error _ => .raised fs
    | .ok true => .ok settings fs
    | .ok false =>
      match makedirs fs mc_dir with
      | .created fs1 => .ok settings fs1
      | .typeerror => .raised fs
      | .oserror =>
        match py_setitem settings "minecraft_directory"
            (.str DEFAULT_MINECRAFT_DIR) with
        | .error _ => .raised fs
        | .ok settings1 =>
          if fs.dirs.contains DEFAULT_MINECRAFT_DIR then .ok settings1 fs
          else
            match makedirs fs (.str DEFAULT_MINECRAFT_DIR) with
            | .created fs1 => .ok settings1 fs1
            | _ => .exited fs

/-- Lines 50-57: the fallback taken when the file is absent or loading
failed — ensure the default directory exists (exit if it cannot be created)
and return the defaults. -/
def load_settings_fallback (fs : FS) : LoadResult :=
  if fs.dirs.contains DEFAULT_MINECRAFT_DIR then .ok default_settings fs
  else
    match makedirs fs (.str DEFAULT_MINECRAFT_DIR) with
    | .created fs1 => .ok default_settings fs1
    | _ => .exited fs

/-- `load_settings` (src/main.py lines 13-57). -/
def load_settings (file : FileState) (fs : FS) : LoadResult :=
  match file with
  | .missing => load_settings_fallback fs
  | .unreadable => load_settings_fallback fs
  | .malformed => load_settings_fallback fs
  | .parsed j =>
    match validate_settings j with
    | .error _ => .raised fs
    | .ok settings => ensure_mc_dir settings fs

/- ### Profiles and the profile dialog (src/main.py lines 124-218) -/

/-- A launch profile as produced by `ProfileDialog.get_profile_data`. -/
structure Profile where
  name : String
  version_id : String
  username : String
  memory_gb : Int
deriving DecidableEq

/-- A `QSpinBox` with `setRange(lo, hi)`: the widget clamps every value
into the range, both on user input and on `setValue`. -/
def spin_clamp (lo hi v : Int) : Int := max lo (min hi v)

/-- Python `str.strip`: drop leading and trailing whitespace. -/
def py_strip (s : String) : String :=
  String.mk
    (((s.data.dropWhile Char.isWhitespace).reverse.dropWhile
      Char.isWhitespace).reverse)

/-- `ProfileDialog.get_profile_data` (lines 193-212): name and username are
stripped, an empty username becomes "Player", the memory value comes from
the 1-16 spinbox, and validation rejects an empty name or a missing (or
empty) version selection. -/
def get_profile_data (name_text : String) (version_sel : Option String)
    (username_text : String) (memory_raw : Int) : Option Profile :=
  let name := py_strip name_text
  let username :=
    if py_strip username_text = "" then "Player" else py_strip username_text
  let memory := spin_clamp 1 16 memory_raw
  if name = "" then none
  else
    match version_sel with
    | none => none
    | some v =>
      if v = "" then none
      else some { name := name, version_id := v, username := username,
                  memory_gb := memory }

/-- Python `str.lower` (ASCII fragment). -/
def py_lower (s : String) : String := String.mk (s.data.map Char.toLower)

/-- The lowercased profile names, as in
`[p.get('name', '').lower() for p in self.profiles]`. -/
def lower_names (profiles : List Profile) : List String :=
  profiles.map fun p => py_lower p.name

/-- `MainWindow.add_profile` (lines 666-683), as a function of the accepted
dialog data: reject a case-insensitive duplicate name, otherwise append. -/
def add_profile (profiles : List Profile) (new_data : Profile) : List Profile :=
  if (lower_names profiles).contains (py_lower new_data.name) then profiles
  else profiles ++ [new_data]

/-- `MainWindow.edit_profile` (lines 685-715): the edited profile is the one
at index `i` (the code locates it by object identity); a rename that
case-insensitively collides with any other profile is rejected, otherwise
the profile is replaced in place. -/
def edit_profile (profiles : List Profile) (i : Nat) (updated : Profile) :
    List Profile :=
  match profiles[i]? with
  | none => profiles
  | some orig =>
    if py_lower updated.name != py_lower orig.name &&
       (lower_names (profiles.eraseIdx i)).contains (py_lower updated.name) then
      profiles
    else profiles.set i updated

/-- `MainWindow.delete_profile` (lines 717-734): `list.remove` deletes the
first element equal to the selected profile. -/
def delete_profile (profiles : List Profile) (selected : Profile) : List Profile :=
  profiles.erase selected

/- ### Settings persistence in the main window (lines 59-68, 736-746, 775-784) -/

/-- The settings document as written by `save_settings`. -/
structure SettingsData where
  minecraft_directory : String
  profiles : List Profile
  last_selected_profile : Option String
deriving DecidableEq

/-- The two profile fields whose editors are wired to
`update_profile_field` (lines 422-423). -/
inductive ProfileField where
  | username (text : String)
  | memory_gb (value : Int)

def apply_field : Profile → ProfileField → Profile
  | p, .username t => { p with username := t }
  | p, .memory_gb v => { p with memory_gb := v }

/-- The GUI state relevant to persistence: the settings dict (whose stored
`last_selected_profile` is refreshed only on close), the live profile list
(aliased into the settings dict in the source), the selected profile
(`current_selected_profile`, here an index), and the file on disk. -/
structure MainWindowState where
  minecraft_directory : String
  settings_last_selected : Option String
  profiles : List Profile
  current_selected : Option Nat
  saved_file : Option SettingsData

/-- `MainWindow.update_profile_field` (lines 775-784): with no selected
profile do nothing, otherwise update the field in the selected profile and
immediately `save_settings`. -/
def update_profile_field (st : MainWindowState) (field : ProfileField) :
    MainWindowState :=
  match st.current_selected with
  | none => st
  | some i =>
    match st.profiles[i]? with
    | none => st
    | some p =>
      let profiles1 := st.profiles.set i (apply_field p field)
      { st with
        profiles := profiles1,
        saved_file := some { minecraft_directory := st.minecraft_directory,
                             profiles := profiles1,
                             last_selected_profile := st.settings_last_selected } }

/-- The `last_selected_profile` value `closeEvent` stores: the selected
profile's name, or `None` when nothing is selected. -/
def close_last (st : MainWindowState) : Option String :=
  match st.current_selected with
  | some i =>
    match st.profiles[i]? with
    | some p => some p.name
    | none => none
  | none => none

/-- `MainWindow.closeEvent` (lines 736-746): refresh `last_selected_profile`
and `profiles` in the settings dict, `save_settings`, and accept the close
event.  The returned boolean is whether the event was accepted. -/
def closeEvent (st : MainWindowState) : MainWindowState × Bool :=
  ({ st with
     settings_last_selected := close_last st,
     saved_file := some { minecraft_directory := st.minecraft_directory,
                          profiles := st.profiles,
                          last_selected_profile := close_last st } }, true)

/- ### The installation worker thread (src/main.py lines 84-120) -/

/-- Qt signal emissions of `InstallThread`, plus the external library call,
in order of occurrence. -/
inductive GuiEvent where
  | status_update (s : String)
  | progress_update (v : Int)
  | progress_max_update (v : Int)
  | lib_install_call (version_id : String) (minecraft_dir : String)
  | finished_signal (success : Bool) (message : String)
deriving DecidableEq

/-- `InstallThread.set_status` (lines 100-101). -/
def set_status (status : String) : GuiEvent := .status_update status

/-- `InstallThread.set_progress` (lines 103-104). -/
def set_progress (value : Int) : GuiEvent := .progress_update value

/-- `InstallThread.set_max` (lines 106-107). -/
def set_max (value : Int) : GuiEvent := .progress_max_update value

/-- A callback dictionary entry: the library passes the stored function
either a status string or an integer count. -/
inductive Callback where
  | strCb (f : String → GuiEvent)
  | intCb (f : Int → GuiEvent)

/-- The callback dictionary built in `InstallThread.__init__`
(lines 94-98). -/
def install_callback : List (String × Callback) :=
  [("setStatus", .strCb set_status),
   ("setProgress", .intCb set_progress),
   ("setMax", .intCb set_max)]

/-- The success message of line 116. -/
def install_success_message (version_id : String) : String :=
  "Version " ++ version_id ++ " installed successfully!"

/-- The error message of line 118. -/
def install_fail_message (version_id : String) (e : String) : String :=
  "Failed to install " ++ version_id ++ ": " ++ e

/-- `InstallThread.run` (lines 109-120): the one library call and the
signal emissions of a single run, as a function of what
`install_minecraft_version` does (normal return, or an exception with
message `e`). -/
def install_thread_run (version_id minecraft_dir : String)
    (install_minecraft_version : String → String → Except String Unit) :
    List GuiEvent :=
  match install_minecraft_version version_id minecraft_dir with
  | .ok _ =>
    [.lib_install_call version_id minecraft_dir,
     .finished_signal true (install_success_message version_id)]
  | .error e =>
    [.lib_install_call version_id minecraft_dir,
     .finished_signal false (install_fail_message version_id e)]

def is_lib_call : GuiEvent → Bool
  | .lib_install_call _ _ => true
  | _ => false

def is_finished : GuiEvent → Bool
  | .finished_signal _ _ => true
  | _ => false

/- ### The offline-mode patch (src/main.py lines 489-544) -/

def OFFLINE_URL : String := "http://127.0.0.1:8080"

def SKIP_ARG : String := "--skipMultiplayerWarning"

/-- Membership of a string in a JSON array under Python `==` (a string
equals no non-string JSON value). -/
def json_arr_has_str (xs : List Json) (key : String) : Bool :=
  xs.any fun x => match x with | .str s => decide (s = key) | _ => false

/-- Lines 508-516: append `--skipMultiplayerWarning` to `arguments.game`
when not already present.  The Python code mutates the list through the
`game_args` alias; in value semantics the mutation is written back with two
`py_setitem`s (which cannot fail where they are reached). -/
def patch_arguments (j : Json) : Except PyErr Json :=
  match py_contains j "arguments" with
  | .error e => .error e
  | .ok false => .ok j
  | .ok true =>
    match py_getitem j "arguments" with
    | .error e => .error e
    | .ok args =>
      match py_contains args "game" with
      | .error e => .error e
      | .ok false => .ok j
      | .ok true =>
        match py_getitem args "game" with
        | .error e => .error e
        | .ok game =>
          match py_contains game SKIP_ARG with
          | .error e => .error e
          | .ok true => .ok j
          | .ok false =>
            match py_append game (.str SKIP_ARG) with
            | .error e => .error e
            | .ok game1 =>
              match py_setitem args "game" game1 with
              | .error e => .error e
              | .ok args1 => py_setitem j "arguments" args1

/-- The replacement applied to each value under `net.server`
(lines 524-525): a string containing 'mojang' or 'minecraft' becomes the
loopback URL, everything else is untouched. -/
def patch_server_value (v : Json) : Json :=
  match v with
  | .str s =>
    if strHas s "mojang" || strHas s "minecraft" then .str OFFLINE_URL else v
  | _ => v

/-- One iteration of `for key in net_servers` (lines 523-525). -/
def patch_server_step (d : List (String × Json)) (key : String) :
    List (String × Json) :=
  match dlookup d key with
  | some (.str s) =>
    if strHas s "mojang" || strHas s "minecraft" then
      dset d key (.str OFFLINE_URL)
    else d
  | _ => d

/-- The loop `for key in net_servers` over the key list captured at entry
(only values are mutated, so the key list is stable). -/
def patch_server_loop : List String → List (String × Json) →
    List (String × Json)
  | [], d => d
  | k :: ks, d => patch_server_loop ks (patch_server_step d k)

/-- Lines 520-525: when `version_data.get('net', {}).get('server', {})` is
truthy, replace the authentication URLs among the values of
`version_data['net']['server']`.  Iterating a truthy non-dict either raises
or, reached only off the JSON-object shapes the claims quantify over, is
modelled as `TypeError`. -/
def patch_net_server (j : Json) : Except PyErr Json :=
  match py_get j "net" (.obj []) with
  | .error e => .error e
  | .ok net0 =>
    match py_get net0 "server" (.obj []) with
    | .error e => .error e
    | .ok srv0 =>
      if truthy srv0 then
        match py_getitem j "net" with
        | .error e => .error e
        | .ok net =>
          match py_getitem net "server" with
          | .error e => .error e
          | .ok srv =>
            match srv with
            | .obj fields =>
              match py_setitem net "server"
                  (.obj (patch_server_loop (keysOf fields) fields)) with
              | .error e => .error e
              | .ok net1 => py_setitem j "net" net1
            | _ => .error .typeError
      else .ok j

/-- Lines 528-530: set `authenticationService.baseUrl` when present. -/
def patch_auth_service (j : Json) : Except PyErr Json :=
  match py_contains j "authenticationService" with
  | .error e => .error e
  | .ok false => .ok j
  | .ok true =>
    match py_getitem j "authenticationService" with
    | .error e => .error e
    | .ok auth =>
      match py_contains auth "baseUrl" with
      | .error e => .error e
      | .ok false => .ok j
      | .ok true =>
        match py_setitem auth "baseUrl" (.str OFFLINE_URL) with
        | .error e => .error e
        | .ok auth1 => py_setitem j "authenticationService" auth1

/-- Lines 532-533: set `servicesBaseUrl` when present. -/
def patch_services_base_url (j : Json) : Except PyErr Json :=
  match py_contains j "servicesBaseUrl" with
  | .error e => .error e
  | .ok false => .ok j
  | .ok true => py_setitem j "servicesBaseUrl" (.str OFFLINE_URL)

/-- The in-memory transformation of `configure_offline_mode`
(lines 508-533), in source order. -/
def patch_manifest (j : Json) : Except PyErr Json :=
  match patch_arguments j with
  | .error e => .error e
  | .ok j1 =>
    match patch_net_server j1 with
    | .error e => .error e
    | .ok j2 =>
      match patch_auth_service j2 with
      | .error e => .error e
      | .ok j3 => patch_services_base_url j3

/-- The version metadata file and its `.backup` companion on disk. -/
structure VersionFile where
  manifest : FileState
  backup : Option FileState

/-- `MainWindow.configure_offline_mode` (lines 489-544): copy the manifest
to `.backup` when no backup exists yet, read and patch the manifest, write
it back, and return `True`; any exception along the way is caught and
yields `False`, with the on-disk manifest unmodified (mutations happen on
the in-memory document; the file is only rewritten by the final
`json.dump`). -/
def configure_offline_mode (vf : VersionFile) : Bool × VersionFile :=
  let vf1 :=
    match vf.backup with
    | some _ => vf
    | none =>
      match vf.manifest with
      | .missing => vf
      | m => { vf with backup := some m }
  match vf1.manifest with
  | .parsed j =>
    match patch_manifest j with
    | .ok j1 => (true, { vf1 with manifest := .parsed j1 })
    | .error _ => (false, vf1)
  | _ => (false, vf1)

/-- A version manifest with the four patched features in front and
arbitrary further fields behind; the parameters range over all contents of
those features. -/
def mk_manifest (gargs : List Json) (args_rest : List (String × Json))
    (srv : List (String × Json)) (net_rest : List (String × Json))
    (base_url : Json) (auth_rest : List (String × Json))
    (services : Json) (rest : List (String × Json)) : Json :=
  .obj (("arguments", .obj (("game", .arr gargs) :: args_rest))
     :: ("net", .obj (("server", .obj srv) :: net_rest))
     :: ("authenticationService", .obj (("baseUrl", base_url) :: auth_rest))
     :: ("servicesBaseUrl", services)
     :: rest)

/-- What the patch does to `arguments.game`. -/
def patched_game (gargs : List Json) : List Json :=
  if json_arr_has_str gargs SKIP_ARG then gargs else gargs ++ [.str SKIP_ARG]

/-- What the patch does to the `net.server` mapping. -/
def map_server_values (srv : List (String × Json)) : List (String × Json) :=
  srv.map fun kv => (kv.1, patch_server_value kv.2)

/- ### Installation concurrency (src/main.py lines 462-475, 624-663) -/

/-- Phase of an `InstallThread`: `running` while `run()` executes
(`isRunning()` true), `finishedPending` once `run()` has returned with its
`finished_signal` still queued, `finishedHandled` once
`on_install_finished` has processed the signal. -/
inductive ThreadPhase where
  | running
  | finishedPending
  | finishedHandled
deriving DecidableEq

/-- The state relevant to claim C10: every thread ever created (indexed by
creation order) and the `self.install_thread` reference. -/
structure InstallerState where
  threads : List ThreadPhase
  install_thread : Option Nat
deriving DecidableEq

def initial_installer : InstallerState := ⟨[], none⟩

/-- The guard of `start_installation_for_profile` (line 626):
`self.install_thread and self.install_thread.isRunning()`. -/
def guard_busy (s : InstallerState) : Bool :=
  match s.install_thread with
  | none => false
  | some t => s.threads[t]? == some .running

/-- The three events that touch the installer state: a user action reaching
`start_installation_for_profile`, a thread's `run()` emitting
`finished_signal` and returning, and the Qt event loop delivering a queued
`finished_signal` to `on_install_finished`. -/
inductive InstallerEvent where
  | start
  | complete (t : Nat)
  | deliver (t : Nat)
deriving DecidableEq

/-- One event of the installer model.  `start` refuses (busy warning, state
unchanged) when the referenced thread is running, otherwise creates and
references a new running thread (lines 624-663); `complete t` is thread
`t` finishing its `run()`; `deliver t` is `on_install_finished` for thread
`t`, which always sets `self.install_thread = None` (line 475). -/
def apply_installer : InstallerState → InstallerEvent → InstallerState
  | s, .start =>
    if guard_busy s then s
    else { threads := s.threads ++ [.running],
           install_thread := some s.threads.length }
  | s, .complete t =>
    if s.threads[t]? == some .running then
      { s with threads := s.threads.set t .finishedPending }
    else s
  | s, .deliver t =>
    if s.threads[t]? == some .finishedPending then
      { threads := s.threads.set t .finishedHandled, install_thread := none }
    else s

/-- Run a sequence of installer events from the initial state. -/
def run_installer (evs : List InstallerEvent) : InstallerState :=
  evs.foldl apply_installer initial_installer

/-- How many installation threads are currently running. -/
def running_count (s : InstallerState) : Nat :=
  s.threads.countP fun p => p == .running

/-- No thread has returned from `run()` with its `finished_signal` still
undelivered. -/
def no_pending (s : InstallerState) : Bool :=
  s.threads.all fun p => p != .finishedPending

/-- A trace is orderly when every `start` happens with no finished signal
pending — the discipline Qt's FIFO queued delivery yields when no start is
processed between a thread's `run()` returning and its signal being
handled. -/
def orderly_from (s : InstallerState) : List InstallerEvent → Bool
  | [] => true
  | e :: rest =>
    (match e with | .start => no_pending s | _ => true) &&
    orderly_from (apply_installer s e) rest

/- ### Claim-level predicates and concrete inputs -/

/-- Settings files on which `load_settings` is well-typed: the file is
absent or invalid, or holds a JSON object whose `minecraft_directory`
value, when present, is a string. -/
def GoodFile : FileState → Prop
  | .parsed (.obj fields) =>
    ∀ v, dlookup fields "minecraft_directory" = some v → ∃ d, v = .str d
  | .parsed _ => False
  | _ => True

/-- The outcome property claim C1 asserts of a `load_settings` result: a
returned settings document names an existing directory (an exit is
covered by C1's separate proviso, an uncaught exception contradicts the
claim outright). -/
def result_dir_exists : LoadResult → Prop
  | .ok s fs1 => ∃ d, py_getitem s "minecraft_directory" = .ok (.str d) ∧
      d ∈ fs1.dirs
  | .exited _ => True
  | .raised _ => False

/-- An empty filesystem. -/
def fs_empty : FS := ⟨[], [], []⟩

/-- A filesystem on which the configured directory "mc" exists. -/
def fs_mc : FS := ⟨["mc"], [], []⟩

/-- A settings document whose `minecraft_directory` is a JSON list — valid
JSON, but `os.path.exists([])` raises `TypeError`. -/
def bad_dir_file : FileState :=
  .parsed (.obj [("minecraft_directory", .arr [])])

/-- Two profiles whose names differ only in case. -/
def profile_A : Json :=
  .obj [("name", .str "Alpha"), ("version_id", .str "1.20.1"),
        ("username", .str "Player"), ("memory_gb", .num 2)]

def profile_a : Json :=
  .obj [("name", .str "alpha"), ("version_id", .str "1.20.1"),
        ("username", .str "Player"), ("memory_gb", .num 2)]

/-- A settings file carrying two case-insensitively equal profile names. -/
def dup_names_file : FileState :=
  .parsed (.obj [("minecraft_directory", .str "mc"),
                 ("profiles", .arr [profile_A, profile_a]),
                 ("last_selected_profile", .null)])

/-- A profile with a memory allocation far outside the 1-16 range. -/
def big_memory_profile : Json :=
  .obj [("name", .str "Big"), ("version_id", .str "1.20.1"),
        ("username", .str "Player"), ("memory_gb", .num 100)]

/-- A settings file carrying the out-of-range profile. -/
def big_memory_file : FileState :=
  .parsed (.obj [("minecraft_directory", .str "mc"),
                 ("profiles", .arr [big_memory_profile]),
                 ("last_selected_profile", .null)])

/- ### Helper lemmas -/

theorem dlookup_of_any (fields : List (String × Json)) (key : String)
    (h : (fields.any fun kv => decide (kv.1 = key)) = true) :
    ∃ v, dlookup fields key = some v := by
  induction fields with
  | nil => simp at h
  | cons kv rest ih =>
    obtain ⟨k, v⟩ := kv
    by_cases hk : k = key
    · exact ⟨v, by simp [dlookup, hk]⟩
    · rw [List.any_cons, decide_eq_false hk, Bool.false_or] at h
      obtain ⟨w, hw⟩ := ih h
      exact ⟨w, by simp [dlookup, hk, hw]⟩

theorem dlookup_dset_self (fields : List (String × Json)) (key : String)
    (v : Json) : dlookup (dset fields key v) key = some v := by
  induction fields with
  | nil => simp [dset, dlookup]
  | cons kv rest ih =>
    obtain ⟨k, w⟩ := kv
    by_cases hk : k = key
    · simp [dset, dlookup, hk]
    · simp [dset, dlookup, hk, ih]

theorem dlookup_dset_ne (fields : List (String × Json)) (k1 k2 : String)
    (v : Json) (h : k1 ≠ k2) :
    dlookup (dset fields k1 v) k2 = dlookup fields k2 := by
  induction fields with
  | nil => simp [dset, dlookup, h]
  | cons kv rest ih =>
    obtain ⟨k, w⟩ := kv
    by_cases hk : k = k1
    · subst hk
      simp [dset, dlookup, h]
    · simp [dset, dlookup, hk, ih]

theorem charsLead_self (l : List Char) : charsLead l l = true := by
  induction l with
  | nil => rfl
  | cons c cs ih => simp [charsLead, ih]

theorem charsHave_append_self (l p : List Char) : charsHave p (l ++ p) = true := by
  induction l with
  | nil =>
    cases p with
    | nil => rfl
    | cons c cs => simp [charsHave, charsLead_self]
  | cons x xs ih => simp [charsHave, ih]

theorem strHas_append (s e : String) : strHas (s ++ e) e = true := by
  unfold strHas
  rw [String.data_append]
  exact charsHave_append_self s.data e.data

/- ### Claim C3 -/

/-- C3 (confirmed): the worker thread relays exactly three callback-style
notifications, each forwarding its argument unchanged — `setStatus` emits
`status_update`, `setProgress` emits `progress_update`, `setMax` emits
`progress_max_update` — and the callback dictionary passed to the library
contains exactly these three entries. -/
theorem install_thread_callbacks_relay :
    install_callback.map Prod.fst = ["setStatus", "setProgress", "setMax"] ∧
    install_callback.length = 3 ∧
    install_callback.lookup "setStatus" = some (.strCb set_status) ∧
    install_callback.lookup "setProgress" = some (.intCb set_progress) ∧
    install_callback.lookup "setMax" = some (.intCb set_max) ∧
    (∀ s : String, set_status s = GuiEvent.status_update s) ∧
    (∀ v : Int, set_progress v = GuiEvent.progress_update v) ∧
    (∀ v : Int, set_max v = GuiEvent.progress_max_update v) :=
  ⟨rfl, rfl, rfl, rfl, rfl, fun _ => rfl, fun _ => rfl, fun _ => rfl⟩

/- ### Claim C4 -/

/-- C4 (confirmed): `InstallThread.run` performs exactly one library call
and emits `finished_signal` exactly once per run; the signal carries
`(True, success message)` exactly when the library call returns normally
and `(False, message containing the exception text)` exactly when it
raises; no exception escapes (the embedding is a total function). -/
theorem install_thread_run_spec (version_id minecraft_dir : String)
    (lib : String → String → Except String Unit) :
    (install_thread_run version_id minecraft_dir lib).countP is_lib_call = 1 ∧
    (install_thread_run version_id minecraft_dir lib).countP is_finished = 1 ∧
    (∀ u, lib version_id minecraft_dir = .ok u →
      install_thread_run version_id minecraft_dir lib =
        [.lib_install_call version_id minecraft_dir,
         .finished_signal true (install_success_message version_id)]) ∧
    (∀ e, lib version_id minecraft_dir = .error e →
      install_thread_run version_id minecraft_dir lib =
        [.lib_install_call version_id minecraft_dir,
         .finished_signal false (install_fail_message version_id e)] ∧
      strHas (install_fail_message version_id e) e = true) := by
  refine ⟨?_, ?_, ?_, ?_⟩
  · cases h : lib version_id minecraft_dir <;>
      simp [install_thread_run, h, is_lib_call]
  · cases h : lib version_id minecraft_dir <;>
      simp [install_thread_run, h, is_finished]
  · intro u hu
    simp [install_thread_run, hu]
  · intro e he
    refine ⟨by simp [install_thread_run, he], ?_⟩
    show strHas ((("Failed to install " ++ version_id) ++ ": ") ++ e) e = true
    exact strHas_append _ e

/-- Witness for C4 at a concrete failing library call. -/
theorem install_thread_run_spec_witness :
    install_thread_run "1.20.1" "mc" (fun _ _ => .error "boom") =
      [.lib_install_call "1.20.1" "mc",
       .finished_signal false (install_fail_message "1.20.1" "boom")] ∧
    strHas (install_fail_message "1.20.1" "boom") "boom" = true :=
  (install_thread_run_spec "1.20.1" "mc" (fun _ _ => .error "boom")).2.2.2
    "boom" rfl

/- ### Settings-loading lemmas -/

theorem validate_mc_good (fields : List (String × Json))
    (h : ∀ v, dlookup fields "minecraft_directory" = some v → ∃ d, v = .str d) :
    ∃ fields1 d, validate_mc (.obj fields) = .ok (.obj fields1) ∧
      dlookup fields1 "minecraft_directory" = some (.str d) := by
  cases hB : (fields.any fun kv => decide (kv.1 = "minecraft_directory")) with
  | true =>
    obtain ⟨v, hv⟩ := dlookup_of_any fields _ hB
    obtain ⟨d, rfl⟩ := h v hv
    exact ⟨fields, d, by simp [validate_mc, py_contains, hB], hv⟩
  | false =>
    exact ⟨dset fields "minecraft_directory" (.str DEFAULT_MINECRAFT_DIR),
      DEFAULT_MINECRAFT_DIR,
      by simp [validate_mc, py_contains, hB, py_setitem],
      dlookup_dset_self _ _ _⟩

theorem validate_profiles_obj (fields : List (String × Json)) :
    ∃ fields2, validate_profiles (.obj fields) = .ok (.obj fields2) ∧
      ∀ k, k ≠ "profiles" → dlookup fields2 k = dlookup fields k := by
  cases hB : (fields.any fun kv => decide (kv.1 = "profiles")) with
  | true =>
    obtain ⟨v, hv⟩ := dlookup_of_any fields _ hB
    cases hL : is_list v with
    | true =>
      refine ⟨fields, ?_, fun k hk => rfl⟩
      simp [validate_profiles, py_contains, hB, py_getitem, hv, Except.map, hL]
    | false =>
      refine ⟨dset fields "profiles" (.arr []), ?_,
        fun k hk => dlookup_dset_ne _ _ _ _ (Ne.symm hk)⟩
      simp [validate_profiles, py_contains, hB, py_getitem, hv, Except.map, hL,
        py_setitem]
  | false =>
    refine ⟨dset fields "profiles" (.arr []), ?_,
      fun k hk => dlookup_dset_ne _ _ _ _ (Ne.symm hk)⟩
    simp [validate_profiles, py_contains, hB, py_setitem]

theorem validate_last_obj (fields : List (String × Json)) :
    ∃ fields2, validate_last (.obj fields) = .ok (.obj fields2) ∧
      ∀ k, k ≠ "last_selected_profile" → dlookup fields2 k = dlookup fields k := by
  cases hB : (fields.any fun kv => decide (kv.1 = "last_selected_profile")) with
  | true =>
    exact ⟨fields, by simp [validate_last, py_contains, hB], fun k hk => rfl⟩
  | false =>
    exact ⟨dset fields "last_selected_profile" .null,
      by simp [validate_last, py_contains, hB, py_setitem],
      fun k hk => dlookup_dset_ne _ _ _ _ (Ne.symm hk)⟩

theorem ensure_mc_dir_good (fields : List (String × Json)) (d : String) (fs : FS)
    (hd : dlookup fields "minecraft_directory" = some (.str d)) :
    result_dir_exists (ensure_mc_dir (.obj fields) fs) ∧
    (∀ fs1, ensure_mc_dir (.obj fields) fs = .exited fs1 →
      DEFAULT_MINECRAFT_DIR ∉ fs.dirs ∧ DEFAULT_MINECRAFT_DIR ∉ fs.creatable) := by
  have hget : py_getitem (.obj fields) "minecraft_directory" = .ok (.str d) := by
    simp [py_getitem, hd]
  have hget2 : py_getitem
      (.obj (dset fields "minecraft_directory" (.str DEFAULT_MINECRAFT_DIR)))
      "minecraft_directory" = .ok (.str DEFAULT_MINECRAFT_DIR) := by
    simp [py_getitem, dlookup_dset_self]
  by_cases hex : d ∈ fs.dirs
  · have hres : ensure_mc_dir (.obj fields) fs = .ok (.obj fields) fs := by
      simp [ensure_mc_dir, hget, path_exists, hex]
    rw [hres]
    exact ⟨⟨d, hget, hex⟩, fun fs1 h1 => LoadResult.noConfusion h1⟩
  · by_cases hcr : d ∈ fs.creatable
    · have hres : ensure_mc_dir (.obj fields) fs =
          .ok (.obj fields) { fs with dirs := d :: fs.dirs } := by
        simp [ensure_mc_dir, hget, path_exists, hex, makedirs, hcr]
      rw [hres]
      exact ⟨⟨d, hget, by simp⟩, fun fs1 h1 => LoadResult.noConfusion h1⟩
    · by_cases hdef : DEFAULT_MINECRAFT_DIR ∈ fs.dirs
      · have hres : ensure_mc_dir (.obj fields) fs =
            .ok (.obj (dset fields "minecraft_directory"
              (.str DEFAULT_MINECRAFT_DIR))) fs := by
          simp [ensure_mc_dir, hget, path_exists, hex, makedirs, hcr,
            py_setitem, hdef]
        rw [hres]
        exact ⟨⟨DEFAULT_MINECRAFT_DIR, hget2, hdef⟩,
          fun fs1 h1 => LoadResult.noConfusion h1⟩
      · by_cases hcrd : DEFAULT_MINECRAFT_DIR ∈ fs.creatable
        · have hres : ensure_mc_dir (.obj fields) fs =
              .ok (.obj (dset fields "minecraft_directory"
                (.str DEFAULT_MINECRAFT_DIR)))
                { fs with dirs := DEFAULT_MINECRAFT_DIR :: fs.dirs } := by
            simp [ensure_mc_dir, hget, path_exists, hex, makedirs, hcr,
              py_setitem, hdef, hcrd]
          rw [hres]
          exact ⟨⟨DEFAULT_MINECRAFT_DIR, hget2, by simp⟩,
            fun fs1 h1 => LoadResult.noConfusion h1⟩
        · have hres : ensure_mc_dir (.obj fields) fs = .exited fs := by
            simp [ensure_mc_dir, hget, path_exists, hex, makedirs, hcr,
              py_setitem, hdef, hcrd]
          rw [hres]
          exact ⟨trivial, fun fs1 h1 => ⟨hdef, hcrd⟩⟩

theorem load_settings_fallback_good (fs : FS) :
    result_dir_exists (load_settings_fallback fs) ∧
    (∀ fs1, load_settings_fallback fs = .exited fs1 →
      DEFAULT_MINECRAFT_DIR ∉ fs.dirs ∧ DEFAULT_MINECRAFT_DIR ∉ fs.creatable) := by
  by_cases hdef : DEFAULT_MINECRAFT_DIR ∈ fs.dirs
  · have hres : load_settings_fallback fs = .ok default_settings fs := by
      simp [load_settings_fallback, hdef]
    rw [hres]
    exact ⟨⟨DEFAULT_MINECRAFT_DIR, rfl, hdef⟩,
      fun fs1 h1 => LoadResult.noConfusion h1⟩
  · by_cases hcrd : DEFAULT_MINECRAFT_DIR ∈ fs.creatable
    · have hres : load_settings_fallback fs =
          .ok default_settings { fs with dirs := DEFAULT_MINECRAFT_DIR :: fs.dirs } := by
        simp [load_settings_fallback, hdef, makedirs, hcrd]
      rw [hres]
      exact ⟨⟨DEFAULT_MINECRAFT_DIR, rfl, by simp⟩,
        fun fs1 h1 => LoadResult.noConfusion h1⟩
    · have hres : load_settings_fallback fs = .exited fs := by
        simp [load_settings_fallback, hdef, makedirs, hcrd]
      rw [hres]
      exact ⟨trivial, fun fs1 h1 => ⟨hdef, hcrd⟩⟩

/- ### Claim C1 -/

/-- C1 (corrected): for every settings file that is missing, unreadable or
malformed, and for every parsed JSON-object settings document whose
`minecraft_directory` value (when present) is a string, `load_settings`
either returns a settings record whose `minecraft_directory` names a
directory existing at return time (creating it, or falling back to the
default directory and creating that, as needed) or exits — and it exits
only when the default directory neither exists nor can be created.  The
original claim quantified over every file content; the counterexample shows
a content on which `load_settings` instead raises an uncaught exception. -/
theorem load_settings_directory_invariant (file : FileState) (fs : FS)
    (h : GoodFile file) :
    result_dir_exists (load_settings file fs) ∧
    (∀ fs1, load_settings file fs = .exited fs1 →
      DEFAULT_MINECRAFT_DIR ∉ fs.dirs ∧ DEFAULT_MINECRAFT_DIR ∉ fs.creatable) := by
  cases file with
  | missing => exact load_settings_fallback_good fs
  | unreadable => exact load_settings_fallback_good fs
  | malformed => exact load_settings_fallback_good fs
  | parsed j =>
    cases j with
    | obj fields =>
      obtain ⟨fields1, d, hmc, hd1⟩ := validate_mc_good fields h
      obtain ⟨fields2, hpr, hpres2⟩ := validate_profiles_obj fields1
      obtain ⟨fields3, hla, hpres3⟩ := validate_last_obj fields2
      have hd3 : dlookup fields3 "minecraft_directory" = some (.str d) := by
        rw [hpres3 _ (by decide), hpres2 _ (by decide)]
        exact hd1
      have hload : load_settings (.parsed (.obj fields)) fs =
          ensure_mc_dir (.obj fields3) fs := by
        simp [load_settings, validate_settings, hmc, hpr, hla]
      rw [hload]
      exact ensure_mc_dir_good fields3 d fs hd3
    | null => exact h.elim
    | bool b => exact h.elim
    | num n => exact h.elim
    | str s => exact h.elim
    | arr xs => exact h.elim

/-- Witness for C1 at a concrete well-typed settings document. -/
theorem load_settings_directory_invariant_witness :
    result_dir_exists
      (load_settings (.parsed (.obj [("minecraft_directory", .str "mc")]))
        ⟨["mc"], [], []⟩) :=
  (load_settings_directory_invariant
    (.parsed (.obj [("minecraft_directory", .str "mc")])) ⟨["mc"], [], []⟩
    (fun v hv => ⟨"mc", by simpa [dlookup] using hv.symm⟩)).1

/-- Counterexample to C1 as stated: on the valid JSON settings document
`{"minecraft_directory": []}` the function neither returns a record naming
an existing directory nor exits — `os.path.exists([])` raises an uncaught
`TypeError`. -/
theorem load_settings_nonstring_directory_raises :
    load_settings bad_dir_file fs_empty = .raised fs_empty ∧
    ¬ result_dir_exists (load_settings bad_dir_file fs_empty) :=
  ⟨rfl, fun hres => hres⟩

/- ### Claim C8 -/

/-- C8 (code_bug): on the settings file containing the valid JSON document
`null`, `load_settings` raises an uncaught `TypeError` (from
`'minecraft_directory' not in settings`) instead of returning the default
settings promised by its own docstring ("Returns defaults if file not
found or invalid"). -/
theorem load_settings_raises_on_null_settings :
    load_settings (.parsed .null) fs_empty = .raised fs_empty := rfl

/- ### List helper lemmas for the profile operations -/

theorem list_set_self {α : Type} (l : List α) (i : Nat) (a : α)
    (h : l[i]? = some a) : l.set i a = l := by
  induction l generalizing i with
  | nil => simp at h
  | cons x xs ih =>
    cases i with
    | zero =>
      rw [List.getElem?_cons_zero] at h
      injection h with h
      rw [h]
      rfl
    | succ n =>
      rw [List.getElem?_cons_succ] at h
      rw [List.set_cons_succ, ih n h]

theorem map_set_eq {α β : Type} (f : α → β) (l : List α) (i : Nat) (a : α) :
    (l.set i a).map f = (l.map f).set i (f a) := by
  induction l generalizing i with
  | nil => simp
  | cons x xs ih =>
    cases i with
    | zero => simp
    | succ n => simp [ih]

theorem map_eraseIdx_eq {α β : Type} (f : α → β) (l : List α) (i : Nat) :
    (l.eraseIdx i).map f = (l.map f).eraseIdx i := by
  induction l generalizing i with
  | nil => simp
  | cons x xs ih =>
    cases i with
    | zero => simp [List.eraseIdx]
    | succ n => simp [List.eraseIdx, ih n]

theorem nodup_set_of_not_mem_eraseIdx {α : Type} (l : List α) (i : Nat) (a : α)
    (hn : l.Nodup) (ha : a ∉ l.eraseIdx i) : (l.set i a).Nodup := by
  induction l generalizing i with
  | nil => simp
  | cons x xs ih =>
    cases i with
    | zero =>
      rw [List.eraseIdx] at ha
      rw [List.set_cons_zero, List.nodup_cons]
      exact ⟨ha, (List.nodup_cons.mp hn).2⟩
    | succ n =>
      rw [List.eraseIdx] at ha
      simp only [List.mem_cons, not_or] at ha
      rw [List.set_cons_succ, List.nodup_cons]
      rw [List.nodup_cons] at hn
      refine ⟨?_, ih n hn.2 ha.2⟩
      intro hx
      rcases List.mem_or_eq_of_mem_set hx with h1 | h1
      · exact hn.1 h1
      · exact ha.1 h1.symm

/- ### Claim C2 -/

/-- C2 (corrected): the profile-editing operations preserve and enforce
case-insensitive name uniqueness — `add_profile` rejects (list unchanged) a
new profile whose lowercased name matches an existing one, `edit_profile`
rejects a rename that collides with any other profile, and all three
operations preserve a duplicate-free name list.  The original claim also
counted `load` among the operations; the counterexample shows
`load_settings` establishes no such invariant, so uniqueness is an
invariant only of states whose profile list is duplicate-free (e.g. those
built by the dialogs alone). -/
theorem profile_ops_preserve_unique_names (profiles : List Profile)
    (p u sel : Profile) (i : Nat) (h : (lower_names profiles).Nodup) :
    (lower_names (add_profile profiles p)).Nodup ∧
    (lower_names (edit_profile profiles i u)).Nodup ∧
    (lower_names (delete_profile profiles sel)).Nodup ∧
    ((lower_names profiles).contains (py_lower p.name) = true →
      add_profile profiles p = profiles) ∧
    (∀ orig, profiles[i]? = some orig →
      (py_lower u.name != py_lower orig.name &&
        (lower_names (profiles.eraseIdx i)).contains (py_lower u.name)) = true →
      edit_profile profiles i u = profiles) := by
  refine ⟨?_, ?_, ?_, ?_, ?_⟩
  · cases hc : (lower_names profiles).contains (py_lower p.name) with
    | true =>
      have hmem : py_lower p.name ∈ lower_names profiles := by simpa using hc
      simpa [add_profile, hmem] using h
    | false =>
      have hmem : py_lower p.name ∉ lower_names profiles := by simpa using hc
      have hadd : add_profile profiles p = profiles ++ [p] := by
        simp [add_profile, hmem]
      rw [hadd]
      have hmap : lower_names (profiles ++ [p]) =
          lower_names profiles ++ [py_lower p.name] := by
        simp [lower_names]
      rw [hmap, List.nodup_append]
      refine ⟨h, List.nodup_singleton _, ?_⟩
      intro x hx hx1
      rw [List.mem_singleton] at hx1
      subst hx1
      exact hmem hx
  · cases hio : profiles[i]? with
    | none => simpa [edit_profile, hio] using h
    | some orig =>
      cases hbne : (py_lower u.name != py_lower orig.name) with
      | false =>
        have heq : py_lower u.name = py_lower orig.name := by simpa using hbne
        have hset : edit_profile profiles i u = profiles.set i u := by
          simp [edit_profile, hio, hbne]
        rw [hset]
        have hmap : lower_names (profiles.set i u) =
            (lower_names profiles).set i (py_lower u.name) := by
          simp [lower_names, map_set_eq]
        have hgi : (lower_names profiles)[i]? = some (py_lower orig.name) := by
          simp [lower_names, hio]
        rw [hmap, heq, list_set_self _ _ _ hgi]
        exact h
      | true =>
        cases hct : (lower_names (profiles.eraseIdx i)).contains
            (py_lower u.name) with
        | true =>
          have hmem2 : py_lower u.name ∈ lower_names (profiles.eraseIdx i) := by
            simpa using hct
          simpa [edit_profile, hio, hbne, hmem2] using h
        | false =>
          have hmem2 : py_lower u.name ∉ lower_names (profiles.eraseIdx i) := by
            simpa using hct
          have hset : edit_profile profiles i u = profiles.set i u := by
            simp [edit_profile, hio, hbne, hmem2]
          rw [hset]
          have hmap : lower_names (profiles.set i u) =
              (lower_names profiles).set i (py_lower u.name) := by
            simp [lower_names, map_set_eq]
          rw [hmap]
          apply nodup_set_of_not_mem_eraseIdx _ _ _ h
          rw [show (lower_names profiles).eraseIdx i =
            lower_names (profiles.eraseIdx i) from
            (map_eraseIdx_eq _ profiles i).symm]
          simpa using hct
  · exact List.Nodup.sublist ((List.erase_sublist _ _).map _) h
  · intro hc
    have hmem : py_lower p.name ∈ lower_names profiles := by simpa using hc
    simp [add_profile, hmem]
  · intro orig hio hcond
    rw [Bool.and_eq_true] at hcond
    have hne : py_lower u.name ≠ py_lower orig.name := by simpa using hcond.1
    have hmem2 : py_lower u.name ∈ lower_names (profiles.eraseIdx i) := by
      simpa using hcond.2
    simp [edit_profile, hio, hne, hmem2]

/-- Witness for C2 on a concrete duplicate-free profile list. -/
theorem profile_ops_preserve_unique_names_witness :
    (lower_names [⟨"Alpha", "1.20.1", "Player", 2⟩]).Nodup ∧
    (lower_names (add_profile [⟨"Alpha", "1.20.1", "Player", 2⟩]
      ⟨"Beta", "1.20.1", "Player", 2⟩)).Nodup :=
  ⟨by decide,
    (profile_ops_preserve_unique_names [⟨"Alpha", "1.20.1", "Player", 2⟩]
      ⟨"Beta", "1.20.1", "Player", 2⟩ ⟨"Beta", "1.20.1", "Player", 2⟩
      ⟨"Beta", "1.20.1", "Player", 2⟩ 0 (by decide)).1⟩

/-- Counterexample to C2 as stated: the `load` operation performs no
uniqueness check — a settings file whose profiles are named "Alpha" and
"alpha" loads unchanged, so a state reachable by the profile operations
(here, a single load) carries two case-insensitively equal names. -/
theorem load_settings_allows_duplicate_profile_names :
    load_settings dup_names_file fs_mc =
      .ok (.obj [("minecraft_directory", .str "mc"),
                 ("profiles", .arr [profile_A, profile_a]),
                 ("last_selected_profile", .null)]) fs_mc ∧
    py_getitem profile_A "name" = .ok (.str "Alpha") ∧
    py_getitem profile_a "name" = .ok (.str "alpha") ∧
    py_lower "Alpha" = py_lower "alpha" :=
  ⟨rfl, rfl, rfl, rfl⟩

/- ### Claim C7 -/

/-- C7 (corrected): every profile produced by the profile dialog has
`memory_gb` in the range 1-16 (the spinboxes clamp into `setRange(1, 16)`),
and the add/edit/delete operations preserve the bound.  The original claim
asserted the bound in every reachable state including profiles loaded from
the settings file; the counterexample shows `load_settings` performs no
such validation. -/
theorem memory_bound_dialog_spec (name_text : String)
    (version_sel : Option String) (username_text : String) (memory_raw : Int)
    (profiles : List Profile) (p sel : Profile) (i : Nat)
    (hall : ∀ q ∈ profiles, 1 ≤ q.memory_gb ∧ q.memory_gb ≤ 16)
    (hp : 1 ≤ p.memory_gb ∧ p.memory_gb ≤ 16) :
    (∀ v : Int, 1 ≤ spin_clamp 1 16 v ∧ spin_clamp 1 16 v ≤ 16) ∧
    (∀ q, get_profile_data name_text version_sel username_text memory_raw =
        some q → 1 ≤ q.memory_gb ∧ q.memory_gb ≤ 16) ∧
    (∀ q ∈ add_profile profiles p, 1 ≤ q.memory_gb ∧ q.memory_gb ≤ 16) ∧
    (∀ q ∈ edit_profile profiles i p, 1 ≤ q.memory_gb ∧ q.memory_gb ≤ 16) ∧
    (∀ q ∈ delete_profile profiles sel, 1 ≤ q.memory_gb ∧ q.memory_gb ≤ 16) := by
  have hclamp : ∀ v : Int, 1 ≤ spin_clamp 1 16 v ∧ spin_clamp 1 16 v ≤ 16 := by
    intro v
    unfold spin_clamp
    exact ⟨le_max_left _ _, max_le (by norm_num) (min_le_left _ _)⟩
  refine ⟨hclamp, ?_, ?_, ?_, ?_⟩
  · intro q hq
    unfold get_profile_data at hq
    by_cases h1 : py_strip name_text = ""
    · simp [h1] at hq
    · cases version_sel with
      | none => simp [h1] at hq
      | some v =>
        by_cases h2 : v = ""
        · simp [h1, h2] at hq
        · simp only [if_neg h1, if_neg h2, Option.some.injEq] at hq
          rw [← hq]
          exact hclamp memory_raw
  · intro q hq
    unfold add_profile at hq
    split at hq
    · exact hall q hq
    · rcases List.mem_append.mp hq with hmem | hmem
      · exact hall q hmem
      · rw [List.mem_singleton] at hmem
        exact hmem ▸ hp
  · intro q hq
    unfold edit_profile at hq
    split at hq
    · exact hall q hq
    · split at hq
      · exact hall q hq
      · rcases List.mem_or_eq_of_mem_set hq with hmem | hmem
        · exact hall q hmem
        · exact hmem ▸ hp
  · intro q hq
    exact hall q (List.mem_of_mem_erase hq)

/-- Witness for C7 at a concrete dialog interaction. -/
theorem memory_bound_dialog_spec_witness :
    1 ≤ (Profile.mk "A" "v" "u" 2).memory_gb ∧
    (Profile.mk "A" "v" "u" 2).memory_gb ≤ 16 :=
  (memory_bound_dialog_spec "A" (some "v") "u" 2 [] ⟨"A", "v", "u", 2⟩
    ⟨"A", "v", "u", 2⟩ 0 (by simp) (by decide)).2.1
    ⟨"A", "v", "u", 2⟩ (by decide)

/-- Counterexample to C7 as stated: a settings file carrying a profile with
`memory_gb` 100 loads unchanged, so a reachable state holds a profile far
outside the 1-16 bound. -/
theorem load_settings_allows_unbounded_memory :
    load_settings big_memory_file fs_mc =
      .ok (.obj [("minecraft_directory", .str "mc"),
                 ("profiles", .arr [big_memory_profile]),
                 ("last_selected_profile", .null)]) fs_mc ∧
    py_getitem big_memory_profile "memory_gb" = .ok (.num 100) ∧
    ¬ (1 ≤ (100 : Int) ∧ (100 : Int) ≤ 16) :=
  ⟨rfl, rfl, by decide⟩

/- ### Claim C6 -/

/-- C6 (confirmed): `closeEvent` writes the current settings — with
`profiles` set to the current profile list and `last_selected_profile` set
to the selected profile's name, or `None` when none is selected — to the
settings file and accepts the close; and every edit of the username or
memory field of the selected profile updates that field in the profile and
immediately writes the settings file (with no selection, field edits do
nothing). -/
theorem settings_persistence_spec (st : MainWindowState) (field : ProfileField)
    (i : Nat) (p : Profile) :
    (closeEvent st).2 = true ∧
    (closeEvent st).1.saved_file =
      some { minecraft_directory := st.minecraft_directory,
             profiles := st.profiles,
             last_selected_profile := close_last st } ∧
    (st.current_selected = none → close_last st = none) ∧
    (st.current_selected = some i → st.profiles[i]? = some p →
      close_last st = some p.name) ∧
    (st.current_selected = some i → st.profiles[i]? = some p →
      (update_profile_field st field).profiles =
        st.profiles.set i (apply_field p field) ∧
      (update_profile_field st field).saved_file =
        some { minecraft_directory := st.minecraft_directory,
               profiles := st.profiles.set i (apply_field p field),
               last_selected_profile := st.settings_last_selected }) ∧
    (st.current_selected = none → update_profile_field st field = st) := by
  refine ⟨rfl, rfl, ?_, ?_, ?_, ?_⟩
  · intro hn
    simp [close_last, hn]
  · intro hs hp
    simp [close_last, hs, hp]
  · intro hs hp
    refine ⟨?_, ?_⟩ <;> simp [update_profile_field, hs, hp]
  · intro hn
    simp [update_profile_field, hn]

/-- Witness for C6 at a concrete window state and field edit. -/
theorem settings_persistence_spec_witness :
    (update_profile_field
      ⟨"mc", some "Alpha", [⟨"Alpha", "v", "u", 2⟩], some 0, none⟩
      (.username "New")).saved_file =
      some ⟨"mc", [⟨"Alpha", "v", "New", 2⟩], some "Alpha"⟩ :=
  ((settings_persistence_spec
    ⟨"mc", some "Alpha", [⟨"Alpha", "v", "u", 2⟩], some 0, none⟩
    (.username "New") 0 ⟨"Alpha", "v", "u", 2⟩).2.2.2.2.1 rfl rfl).2

/- ### Offline-patch lemmas -/

theorem dlookup_cons_ne (k : String) (w : Json) (d : List (String × Json))
    (key : String) (hk : k ≠ key) :
    dlookup ((k, w) :: d) key = dlookup d key := by
  simp [dlookup, hk]

theorem dset_cons_ne (k : String) (w : Json) (d : List (String × Json))
    (key : String) (v : Json) (hk : k ≠ key) :
    dset ((k, w) :: d) key v = (k, w) :: dset d key v := by
  simp [dset, hk]

theorem patch_server_step_cons_ne (k : String) (w : Json)
    (d : List (String × Json)) (key : String) (hk : k ≠ key) :
    patch_server_step ((k, w) :: d) key = (k, w) :: patch_server_step d key := by
  unfold patch_server_step
  rw [dlookup_cons_ne k w d key hk]
  cases dlookup d key with
  | none => rfl
  | some v =>
    cases v with
    | str s =>
      cases hb : (strHas s "mojang" || strHas s "minecraft") with
      | true => simp [hb, dset_cons_ne k w d key (Json.str OFFLINE_URL) hk]
      | false => simp [hb]
    | null => rfl
    | bool b => rfl
    | num n => rfl
    | arr xs => rfl
    | obj fields => rfl

theorem patch_server_step_head (k : String) (v : Json)
    (rest : List (String × Json)) :
    patch_server_step ((k, v) :: rest) k = (k, patch_server_value v) :: rest := by
  unfold patch_server_step
  have hl : dlookup ((k, v) :: rest) k = some v := by simp [dlookup]
  rw [hl]
  cases v with
  | str s =>
    cases hb : (strHas s "mojang" || strHas s "minecraft") with
    | true =>
      have hd : dset ((k, Json.str s) :: rest) k (.str OFFLINE_URL) =
          (k, Json.str OFFLINE_URL) :: rest := by simp [dset]
      simp [hb, hd, patch_server_value]
    | false => simp [hb, patch_server_value]
  | null => rfl
  | bool b => rfl
  | num n => rfl
  | arr xs => rfl
  | obj fields => rfl

theorem patch_server_loop_cons_notmem (ks : List String) :
    ∀ (k : String) (w : Json) (d : List (String × Json)), k ∉ ks →
      patch_server_loop ks ((k, w) :: d) = (k, w) :: patch_server_loop ks d := by
  induction ks with
  | nil =>
    intro k w d hk
    rfl
  | cons k1 ks1 ih =>
    intro k w d hk
    rw [List.mem_cons, not_or] at hk
    simp only [patch_server_loop]
    rw [patch_server_step_cons_ne k w d k1 hk.1]
    exact ih k w (patch_server_step d k1) hk.2

theorem patch_server_loop_keys (d : List (String × Json))
    (hn : (d.map Prod.fst).Nodup) :
    patch_server_loop (keysOf d) d = map_server_values d := by
  induction d with
  | nil => rfl
  | cons kv rest ih =>
    obtain ⟨k, v⟩ := kv
    rw [List.map_cons, List.nodup_cons] at hn
    show patch_server_loop (k :: keysOf rest) ((k, v) :: rest) = _
    simp only [patch_server_loop]
    rw [patch_server_step_head k v rest]
    rw [patch_server_loop_cons_notmem (keysOf rest) k (patch_server_value v)
      rest hn.1]
    rw [ih hn.2]
    rfl

theorem patch_arguments_mk (gargs : List Json)
    (args_rest srv net_rest : List (String × Json)) (base_url : Json)
    (auth_rest : List (String × Json)) (services : Json)
    (rest : List (String × Json)) :
    patch_arguments (mk_manifest gargs args_rest srv net_rest base_url
        auth_rest services rest) =
      .ok (mk_manifest (patched_game gargs) args_rest srv net_rest base_url
        auth_rest services rest) := by
  cases hb : json_arr_has_str gargs SKIP_ARG with
  | true =>
    simp only [json_arr_has_str] at hb
    simp [patch_arguments, mk_manifest, patched_game, py_contains, py_getitem,
      py_setitem, py_append, dlookup, dset, json_arr_has_str, hb]
  | false =>
    simp only [json_arr_has_str] at hb
    simp [patch_arguments, mk_manifest, patched_game, py_contains, py_getitem,
      py_setitem, py_append, dlookup, dset, json_arr_has_str, hb]

theorem patch_net_server_mk (gargs : List Json)
    (args_rest srv net_rest : List (String × Json)) (base_url : Json)
    (auth_rest : List (String × Json)) (services : Json)
    (rest : List (String × Json)) (hn : (srv.map Prod.fst).Nodup) :
    patch_net_server (mk_manifest gargs args_rest srv net_rest base_url
        auth_rest services rest) =
      .ok (mk_manifest gargs args_rest (map_server_values srv) net_rest
        base_url auth_rest services rest) := by
  cases srv with
  | nil =>
    simp [patch_net_server, mk_manifest, py_get, dlookup, truthy,
      map_server_values]
  | cons kv srv1 =>
    have hloop := patch_server_loop_keys (kv :: srv1) hn
    simp only [keysOf, List.map_cons, map_server_values] at hloop
    simp [patch_net_server, mk_manifest, py_get, py_getitem, py_setitem,
      dlookup, dset, truthy, keysOf, hloop, map_server_values]

theorem patch_auth_service_mk (gargs : List Json)
    (args_rest srv net_rest : List (String × Json)) (base_url : Json)
    (auth_rest : List (String × Json)) (services : Json)
    (rest : List (String × Json)) :
    patch_auth_service (mk_manifest gargs args_rest srv net_rest base_url
        auth_rest services rest) =
      .ok (mk_manifest gargs args_rest srv net_rest (.str OFFLINE_URL)
        auth_rest services rest) := by
  simp [patch_auth_service, mk_manifest, py_contains, py_getitem, py_setitem,
    dlookup, dset]

theorem patch_services_base_url_mk (gargs : List Json)
    (args_rest srv net_rest : List (String × Json)) (base_url : Json)
    (auth_rest : List (String × Json)) (services : Json)
    (rest : List (String × Json)) :
    patch_services_base_url (mk_manifest gargs args_rest srv net_rest base_url
        auth_rest services rest) =
      .ok (mk_manifest gargs args_rest srv net_rest base_url auth_rest
        (.str OFFLINE_URL) rest) := by
  simp [patch_services_base_url, mk_manifest, py_contains, py_setitem,
    dlookup, dset]

theorem patch_manifest_mk (gargs : List Json)
    (args_rest srv net_rest : List (String × Json)) (base_url : Json)
    (auth_rest : List (String × Json)) (services : Json)
    (rest : List (String × Json)) (hn : (srv.map Prod.fst).Nodup) :
    patch_manifest (mk_manifest gargs args_rest srv net_rest base_url
        auth_rest services rest) =
      .ok (mk_manifest (patched_game gargs) args_rest (map_server_values srv)
        net_rest (.str OFFLINE_URL) auth_rest (.str OFFLINE_URL) rest) := by
  simp only [patch_manifest,
    patch_arguments_mk gargs args_rest srv net_rest base_url auth_rest
      services rest,
    patch_net_server_mk (patched_game gargs) args_rest srv net_rest base_url
      auth_rest services rest hn,
    patch_auth_service_mk (patched_game gargs) args_rest
      (map_server_values srv) net_rest base_url auth_rest services rest,
    patch_services_base_url_mk (patched_game gargs) args_rest
      (map_server_values srv) net_rest (Json.str OFFLINE_URL) auth_rest
      services rest]

theorem configure_false_manifest_unchanged (vf : VersionFile)
    (h : (configure_offline_mode vf).1 = false) :
    (configure_offline_mode vf).2.manifest = vf.manifest := by
  obtain ⟨m, bk⟩ := vf
  cases m with
  | parsed j =>
    cases hp : patch_manifest j with
    | ok j1 => cases bk <;> simp [configure_offline_mode, hp] at h
    | error e => cases bk <;> simp [configure_offline_mode, hp]
  | missing => cases bk <;> simp [configure_offline_mode]
  | unreadable => cases bk <;> simp [configure_offline_mode]
  | malformed => cases bk <;> simp [configure_offline_mode]

theorem configure_true_iff (vf : VersionFile) :
    (configure_offline_mode vf).1 = true ↔
      ∃ j j1, vf.manifest = .parsed j ∧ patch_manifest j = .ok j1 := by
  obtain ⟨m, bk⟩ := vf
  cases m with
  | parsed j =>
    cases hp : patch_manifest j with
    | ok j1 =>
      cases bk <;> simp [configure_offline_mode, hp]
    | error e =>
      cases bk <;> simp [configure_offline_mode, hp]
  | missing => cases bk <;> simp [configure_offline_mode]
  | unreadable => cases bk <;> simp [configure_offline_mode]
  | malformed => cases bk <;> simp [configure_offline_mode]

/- ### Claim C5 -/

/-- C5 (confirmed): on a version manifest (a JSON object whose
`arguments.game` is a list, whose `net.server` is a mapping with distinct
keys, with an `authenticationService.baseUrl` and a `servicesBaseUrl`, and
arbitrary other content), the offline-mode patch replaces every string
value under `net.server` containing 'mojang' or 'minecraft' by the
loopback URL, sets `authenticationService.baseUrl` and `servicesBaseUrl`
to the same URL, appends "--skipMultiplayerWarning" to `arguments.game`
exactly when absent, and leaves all other content unchanged; and
`configure_offline_mode` returns `True` exactly when reading and patching
succeed, returning `False` with the on-disk manifest unmodified when any
step raises. -/
theorem configure_offline_mode_spec (gargs : List Json)
    (args_rest srv net_rest : List (String × Json)) (base_url : Json)
    (auth_rest : List (String × Json)) (services : Json)
    (rest : List (String × Json)) (vf : VersionFile)
    (hn : (srv.map Prod.fst).Nodup) :
    patch_manifest (mk_manifest gargs args_rest srv net_rest base_url
        auth_rest services rest) =
      .ok (mk_manifest (patched_game gargs) args_rest (map_server_values srv)
        net_rest (.str OFFLINE_URL) auth_rest (.str OFFLINE_URL) rest) ∧
    ((configure_offline_mode vf).1 = false →
      (configure_offline_mode vf).2.manifest = vf.manifest) ∧
    ((configure_offline_mode vf).1 = true ↔
      ∃ j j1, vf.manifest = .parsed j ∧ patch_manifest j = .ok j1) :=
  ⟨patch_manifest_mk gargs args_rest srv net_rest base_url auth_rest services
     rest hn,
   configure_false_manifest_unchanged vf,
   configure_true_iff vf⟩

/-- Witness for C5 at a concrete manifest carrying a Mojang
authentication URL. -/
theorem configure_offline_mode_spec_witness :
    patch_manifest (mk_manifest [] []
        [("auth", .str "https://authserver.mojang.com")] [] (.str "x") []
        (.str "y") [("id", .str "1.20.1")]) =
      .ok (mk_manifest (patched_game []) []
        (map_server_values [("auth", .str "https://authserver.mojang.com")])
        [] (.str OFFLINE_URL) [] (.str OFFLINE_URL)
        [("id", .str "1.20.1")]) :=
  (configure_offline_mode_spec [] []
    [("auth", .str "https://authserver.mojang.com")] [] (.str "x") []
    (.str "y") [("id", .str "1.20.1")]
    ⟨.parsed (mk_manifest [] []
      [("auth", .str "https://authserver.mojang.com")] [] (.str "x") []
      (.str "y") [("id", .str "1.20.1")]), none⟩
    (by decide)).1

/- ### Idempotence lemmas -/

theorem map_server_values_keys (srv : List (String × Json)) :
    (map_server_values srv).map Prod.fst = srv.map Prod.fst := by
  induction srv with
  | nil => rfl
  | cons kv rest ih =>
    simp only [map_server_values, List.map_cons] at *
    rw [ih]

theorem patched_game_idem (gargs : List Json) :
    patched_game (patched_game gargs) = patched_game gargs := by
  cases hb : json_arr_has_str gargs SKIP_ARG with
  | true => simp [patched_game, hb]
  | false =>
    have hhas : json_arr_has_str (gargs ++ [.str SKIP_ARG]) SKIP_ARG = true := by
      simp [json_arr_has_str, List.any_append]
    simp [patched_game, hb, hhas]

theorem patch_server_value_idem (v : Json) :
    patch_server_value (patch_server_value v) = patch_server_value v := by
  cases v with
  | str s =>
    cases hb : (strHas s "mojang" || strHas s "minecraft") with
    | true =>
      have hurl : (strHas OFFLINE_URL "mojang" ||
          strHas OFFLINE_URL "minecraft") = false := by decide
      simp [patch_server_value, hb, hurl]
    | false => simp [patch_server_value, hb]
  | null => rfl
  | bool b => rfl
  | num n => rfl
  | arr xs => rfl
  | obj fields => rfl

theorem map_server_values_idem (srv : List (String × Json)) :
    map_server_values (map_server_values srv) = map_server_values srv := by
  induction srv with
  | nil => rfl
  | cons kv rest ih =>
    simp only [map_server_values, List.map_cons] at *
    rw [patch_server_value_idem, ih]

theorem configure_preserves_backup (vf : VersionFile) (bk : FileState)
    (hbk : vf.backup = some bk) :
    (configure_offline_mode vf).2.backup = some bk := by
  obtain ⟨m, bk0⟩ := vf
  simp only at hbk
  subst hbk
  cases m with
  | parsed j =>
    cases hp : patch_manifest j with
    | ok j1 => simp [configure_offline_mode, hp]
    | error e => simp [configure_offline_mode, hp]
  | missing => simp [configure_offline_mode]
  | unreadable => simp [configure_offline_mode]
  | malformed => simp [configure_offline_mode]

/- ### Claim C9 -/

/-- C9 (confirmed): the offline-mode patch is idempotent on well-shaped
version manifests — a second application leaves the once-patched manifest
unchanged, because "--skipMultiplayerWarning" is appended only when absent
and the loopback URL contains neither 'mojang' nor 'minecraft' — and the
`.backup` file is created only when absent, so a second application keeps
the backup of the original manifest. -/
theorem configure_offline_mode_idempotent (gargs : List Json)
    (args_rest srv net_rest : List (String × Json)) (base_url : Json)
    (auth_rest : List (String × Json)) (services : Json)
    (rest : List (String × Json)) (vf : VersionFile) (bk : FileState)
    (hn : (srv.map Prod.fst).Nodup) (hbk : vf.backup = some bk) :
    patch_manifest (mk_manifest (patched_game gargs) args_rest
        (map_server_values srv) net_rest (.str OFFLINE_URL) auth_rest
        (.str OFFLINE_URL) rest) =
      .ok (mk_manifest (patched_game gargs) args_rest (map_server_values srv)
        net_rest (.str OFFLINE_URL) auth_rest (.str OFFLINE_URL) rest) ∧
    (configure_offline_mode vf).2.backup = some bk ∧
    configure_offline_mode
        ((configure_offline_mode
          ⟨.parsed (mk_manifest gargs args_rest srv net_rest base_url
            auth_rest services rest), none⟩).2) =
      (true, (configure_offline_mode
        ⟨.parsed (mk_manifest gargs args_rest srv net_rest base_url auth_rest
          services rest), none⟩).2) ∧
    (configure_offline_mode
        ⟨.parsed (mk_manifest gargs args_rest srv net_rest base_url auth_rest
          services rest), none⟩).2.backup =
      some (.parsed (mk_manifest gargs args_rest srv net_rest base_url
        auth_rest services rest)) := by
  have hkeys : ((map_server_values srv).map Prod.fst).Nodup := by
    rw [map_server_values_keys]
    exact hn
  have hpatched := patch_manifest_mk (patched_game gargs) args_rest
    (map_server_values srv) net_rest (.str OFFLINE_URL) auth_rest
    (.str OFFLINE_URL) rest hkeys
  rw [patched_game_idem, map_server_values_idem] at hpatched
  have h1 : configure_offline_mode
      ⟨.parsed (mk_manifest gargs args_rest srv net_rest base_url auth_rest
        services rest), none⟩ =
      (true, ⟨.parsed (mk_manifest (patched_game gargs) args_rest
        (map_server_values srv) net_rest (.str OFFLINE_URL) auth_rest
        (.str OFFLINE_URL) rest),
        some (.parsed (mk_manifest gargs args_rest srv net_rest base_url
          auth_rest services rest))⟩) := by
    simp [configure_offline_mode,
      patch_manifest_mk gargs args_rest srv net_rest base_url auth_rest
        services rest hn]
  refine ⟨hpatched, configure_preserves_backup vf bk hbk, ?_, ?_⟩
  · rw [h1]
    simp [configure_offline_mode, hpatched]
  · rw [h1]

/- ### Installer-concurrency lemmas -/

theorem installer_inv_step (s : InstallerState) (e : InstallerEvent)
    (h1 : ∀ i : Nat, s.threads[i]? = some ThreadPhase.running → s.install_thread = some i)
    (h2 : ∀ i j : Nat, s.threads[i]? = some ThreadPhase.running →
      s.threads[j]? = some ThreadPhase.finishedPending → False)
    (ho : e = .start → no_pending s = true) :
    (∀ i : Nat, (apply_installer s e).threads[i]? = some ThreadPhase.running →
      (apply_installer s e).install_thread = some i) ∧
    (∀ i j : Nat, (apply_installer s e).threads[i]? = some ThreadPhase.running →
      (apply_installer s e).threads[j]? = some ThreadPhase.finishedPending → False) := by
  cases e with
  | start =>
    have hnp : no_pending s = true := ho rfl
    have hnop : ∀ j : Nat, s.threads[j]? ≠ some ThreadPhase.finishedPending := by
      intro j hj
      have hmem : ThreadPhase.finishedPending ∈ s.threads := by
        obtain ⟨hlt, hg⟩ := List.getElem?_eq_some_iff.mp hj
        exact hg ▸ List.getElem_mem hlt
      rw [no_pending, List.all_eq_true] at hnp
      have := hnp _ hmem
      simp at this
    cases hg : guard_busy s with
    | true =>
      simp only [apply_installer, hg, if_true]
      exact ⟨h1, h2⟩
    | false =>
      have hnorun : ∀ i : Nat, s.threads[i]? ≠ some ThreadPhase.running := by
        intro i hi
        have href := h1 i hi
        rw [guard_busy, href] at hg
        simp [hi] at hg
      constructor
      · intro i hi
        simp only [apply_installer, hg, Bool.false_eq_true, if_false] at hi ⊢
        rcases Nat.lt_or_ge i s.threads.length with hlt | hge
        · exact absurd (by rwa [List.getElem?_append_left hlt] at hi)
            (hnorun i)
        · rcases Nat.lt_or_ge i (s.threads.length + 1) with hlt2 | hge2
          · have hil : i = s.threads.length :=
              Nat.le_antisymm hge (Nat.lt_succ_iff.mp hlt2) |>.symm
            rw [hil]
          · rw [List.getElem?_eq_none (by simp; omega)] at hi
            cases hi
      · intro i j hi hj
        simp only [apply_installer, hg, Bool.false_eq_true, if_false] at hi hj
        rcases Nat.lt_or_ge j s.threads.length with hlt | hge
        · exact hnop j (by rwa [List.getElem?_append_left hlt] at hj)
        · rcases Nat.lt_or_ge j (s.threads.length + 1) with hlt2 | hge2
          · have hjl : j = s.threads.length :=
              Nat.le_antisymm hge (Nat.lt_succ_iff.mp hlt2) |>.symm
            rw [hjl, List.getElem?_concat_length] at hj
            cases hj
          · rw [List.getElem?_eq_none (by simp; omega)] at hj
            cases hj
  | complete t =>
    cases hc : (s.threads[t]? == some ThreadPhase.running) with
    | false =>
      simp only [apply_installer, hc, Bool.false_eq_true, if_false]
      exact ⟨h1, h2⟩
    | true =>
      have hrun : s.threads[t]? = some ThreadPhase.running := by simpa using hc
      have hlen : t < s.threads.length :=
        (List.getElem?_eq_some_iff.mp hrun).1
      constructor
      · intro i hi
        simp only [apply_installer, hc, if_true] at hi ⊢
        by_cases hit : t = i
        · subst hit
          rw [List.getElem?_set_self hlen] at hi
          cases hi
        · rw [List.getElem?_set_ne hit] at hi
          exact h1 i hi
      · intro i j hi hj
        simp only [apply_installer, hc, if_true] at hi hj
        by_cases hit : t = i
        · subst hit
          rw [List.getElem?_set_self hlen] at hi
          cases hi
        · rw [List.getElem?_set_ne hit] at hi
          have hi1 := h1 i hi
          have ht1 := h1 t hrun
          rw [hi1] at ht1
          exact hit (Option.some.inj ht1).symm
  | deliver t =>
    cases hc : (s.threads[t]? == some ThreadPhase.finishedPending) with
    | false =>
      simp only [apply_installer, hc, Bool.false_eq_true, if_false]
      exact ⟨h1, h2⟩
    | true =>
      have hpend : s.threads[t]? = some ThreadPhase.finishedPending := by
        simpa using hc
      have hlen : t < s.threads.length :=
        (List.getElem?_eq_some_iff.mp hpend).1
      have hnorun : ∀ i : Nat,
          (s.threads.set t ThreadPhase.finishedHandled)[i]? ≠
            some ThreadPhase.running := by
        intro i hi
        by_cases hit : t = i
        · subst hit
          rw [List.getElem?_set_self hlen] at hi
          cases hi
        · rw [List.getElem?_set_ne hit] at hi
          exact h2 i t hi hpend
      constructor
      · intro i hi
        simp only [apply_installer, hc, if_true] at hi
        exact absurd hi (hnorun i)
      · intro i j hi hj
        simp only [apply_installer, hc, if_true] at hi
        exact absurd hi (hnorun i)

theorem installer_inv_run (evs : List InstallerEvent) :
    ∀ s : InstallerState,
      (∀ i : Nat, s.threads[i]? = some ThreadPhase.running → s.install_thread = some i) →
      (∀ i j : Nat, s.threads[i]? = some ThreadPhase.running →
        s.threads[j]? = some ThreadPhase.finishedPending → False) →
      orderly_from s evs = true →
      ∀ i : Nat, (List.foldl apply_installer s evs).threads[i]? = some ThreadPhase.running →
        (List.foldl apply_installer s evs).install_thread = some i := by
  induction evs with
  | nil =>
    intro s h1 h2 _
    simpa using h1
  | cons e evs1 ih =>
    intro s h1 h2 ho
    have hco : orderly_from (apply_installer s e) evs1 = true ∧
        (e = InstallerEvent.start → no_pending s = true) := by
      cases e with
      | start =>
        simp only [orderly_from, Bool.and_eq_true] at ho
        exact ⟨ho.2, fun _ => ho.1⟩
      | complete t =>
        simp only [orderly_from, Bool.true_and] at ho
        exact ⟨ho, fun he => InstallerEvent.noConfusion he⟩
      | deliver t =>
        simp only [orderly_from, Bool.true_and] at ho
        exact ⟨ho, fun he => InstallerEvent.noConfusion he⟩
    have hstep := installer_inv_step s e h1 h2 hco.2
    simpa using ih (apply_installer s e) hstep.1 hstep.2 hco.1

theorem count_running_le_one (l : List ThreadPhase)
    (h : ∀ i j : Nat, l[i]? = some ThreadPhase.running →
      l[j]? = some ThreadPhase.running → i = j) :
    l.countP (fun p => p == ThreadPhase.running) ≤ 1 := by
  induction l with
  | nil => simp
  | cons x xs ih =>
    rw [List.countP_cons]
    by_cases hxr : x = ThreadPhase.running
    · subst hxr
      have hz : xs.countP (fun p => p == ThreadPhase.running) = 0 := by
        rw [List.countP_eq_zero]
        intro a ha hab
        have hae : a = ThreadPhase.running := by simpa using hab
        subst hae
        obtain ⟨n, hn⟩ := List.getElem?_of_mem ha
        have h0 := h 0 (n + 1) (by simp) (by simpa using hn)
        omega
      rw [hz]
      simp
    · have hx : (x == ThreadPhase.running) = false := by simpa using hxr
      rw [hx]
      simp only [Bool.false_eq_true, if_false, Nat.add_zero]
      apply ih
      intro i j hi hj
      have := h (i + 1) (j + 1) (by simpa using hi) (by simpa using hj)
      omega

/- ### Claim C10 -/

/-- C10 (corrected): the guard of `start_installation_for_profile` refuses
to start (state unchanged) whenever the referenced install thread is
running, and the thread reference is set to `None` only when
`on_install_finished` handles a delivered `finished_signal`; along every
trace in which each start happens with no finished signal still pending —
the discipline FIFO queued delivery normally yields — at most one
installation thread is ever running.  The original claim asserted the bound
in every reachable state; the counterexample exhibits a trace in which a
start lands between a thread's `run()` returning and its signal being
handled, after which the orphaned signal clears the reference of the new
running thread and a further start yields two running installations. -/
theorem installer_single_run_invariant (evs : List InstallerEvent)
    (h : orderly_from initial_installer evs = true) :
    running_count (run_installer evs) ≤ 1 ∧
    (∀ s : InstallerState, guard_busy s = true → apply_installer s .start = s) ∧
    (∀ (s : InstallerState) (e : InstallerEvent),
      s.install_thread ≠ none → (apply_installer s e).install_thread = none →
      ∃ t, e = .deliver t ∧ s.threads[t]? = some ThreadPhase.finishedPending) := by
  refine ⟨?_, ?_, ?_⟩
  · have hrun := installer_inv_run evs initial_installer
      (by intro i hi; simp [initial_installer] at hi)
      (by intro i j hi _; simp [initial_installer] at hi) h
    apply count_running_le_one
    intro i j hi hj
    have e1 := hrun i hi
    have e2 := hrun j hj
    rw [e1] at e2
    exact Option.some.inj e2
  · intro s hg
    simp [apply_installer, hg]
  · intro s e hne hnone
    cases e with
    | start =>
      exfalso
      cases hg : guard_busy s with
      | true =>
        rw [show apply_installer s .start = s by simp [apply_installer, hg]]
          at hnone
        exact hne hnone
      | false =>
        simp [apply_installer, hg] at hnone
    | complete t =>
      exfalso
      cases hc : (s.threads[t]? == some ThreadPhase.running) with
      | true =>
        simp only [apply_installer, hc, if_true] at hnone
        exact hne hnone
      | false =>
        simp only [apply_installer, hc, Bool.false_eq_true, if_false] at hnone
        exact hne hnone
    | deliver t =>
      cases hc : (s.threads[t]? == some ThreadPhase.finishedPending) with
      | true => exact ⟨t, rfl, by simpa using hc⟩
      | false =>
        exfalso
        simp only [apply_installer, hc, Bool.false_eq_true, if_false] at hnone
        exact hne hnone

/-- Witness for C10 at a concrete orderly trace. -/
theorem installer_single_run_invariant_witness :
    orderly_from initial_installer
      [.start, .complete 0, .deliver 0, .start] = true ∧
    running_count (run_installer [.start, .complete 0, .deliver 0, .start]) ≤ 1 :=
  ⟨by decide,
    (installer_single_run_invariant [.start, .complete 0, .deliver 0, .start]
      (by decide)).1⟩

/-- Counterexample to C10 as stated: the trace start / thread 0 finishes /
start (the guard passes because the stale referenced thread is no longer
running) / thread 0's orphaned signal handled (clearing the reference while
thread 1 runs) / start reaches a state with two running installation
threads. -/
theorem installer_two_running_reachable :
    ¬ (running_count (run_installer
        [.start, .complete 0, .start, .deliver 0, .start]) ≤ 1) := by decide

/-- Witness for C9: a concrete manifest patched twice at the file level
equals the once-patched file state. -/
theorem configure_offline_mode_idempotent_witness :
    configure_offline_mode
        ((configure_offline_mode
          ⟨.parsed (mk_manifest [] [] [("auth", .str "minecraft.net")] []
            (.str "x") [] (.str "y") []), none⟩).2) =
      (true, (configure_offline_mode
        ⟨.parsed (mk_manifest [] [] [("auth", .str "minecraft.net")] []
          (.str "x") [] (.str "y") []), none⟩).2) :=
  (configure_offline_mode_idempotent [] [] [("auth", .str "minecraft.net")]
    [] (.str "x") [] (.str "y") [] ⟨.missing, some .missing⟩ .missing
    (by decide) rfl).2.2.1
